import Mathlib

/-!
Verification development for the `klb` record-store facade
(`storage.firebase.js` and its two variants under `src/unnamed/`).

The facade is a thin layer over a document database.  We embed it shallowly:

* the `entries` collection becomes an association list from document ids to
  `EntryDoc` values (`Store`), with `get`/`set`/`del` as the database
  primitives used by the code;
* JS objects with possibly-missing fields become structures of `Option`
  fields; JS truthiness of such a field is `truthy` below;
* `Object.assign({}, old, data)` and Firestore `update(data)` become the
  field-wise `mergeEntry`;
* the asynchronous operations are sequential state transformers
  `Store → Store × Res`; a Firestore transaction is a single atomic step of
  that function (the backing database is an external collaborator, so its
  transaction machinery is out of scope and a transaction body runs
  uninterrupted);
* backend read failures, where a claim is about them, are injected through
  explicit outcome parameters (`ReadOutcome`, `QueryOutcome`).
-/

namespace KLB

/-- JS truthiness of a possibly-missing boolean field:
`undefined` and `false` are falsy, `true` is truthy. -/
def truthy : Option Bool → Bool
  | none => false
  | some b => b

/-- Characters matched by the JS regex class `\s`
(ES whitespace and line terminators). -/
def jsIsSpace (c : Char) : Bool :=
  c = ' ' || c = '\t' || c = '\n' || c = '\x0b' || c = '\x0c' || c = '\r' ||
  c = '\u00A0' || c = '\u1680' || ('\u2000' ≤ c && c ≤ '\u200A') ||
  c = '\u2028' || c = '\u2029' || c = '\u202F' || c = '\u205F' ||
  c = '\u3000' || c = '\uFEFF'

/-- `String.prototype.trim`: drop leading and trailing whitespace. -/
def jsTrim (l : List Char) : List Char :=
  ((l.dropWhile jsIsSpace).reverse.dropWhile jsIsSpace).reverse

/-- `.replace(/\s+/g,'_')`: each maximal run of whitespace becomes one `_`.
The flag records whether the previous character was part of a run. -/
def collapseWsAux : Bool → List Char → List Char
  | _, [] => []
  | prev, c :: rest =>
    if jsIsSpace c then
      if prev then collapseWsAux true rest
      else '_' :: collapseWsAux true rest
    else c :: collapseWsAux false rest

/-- Characters kept by `.replace(/[^A-Za-z0-9_\-]/g,'')`. -/
def isSafeChar (c : Char) : Bool :=
  ('A' ≤ c && c ≤ 'Z') || ('a' ≤ c && c ≤ 'z') ||
  ('0' ≤ c && c ≤ '9') || c = '_' || c = '-'

/-- The `safe` helper of `makeEntryId`:
`String(s || '').trim().replace(/\s+/g,'_').replace(/[^A-Za-z0-9_\-]/g,'')`. -/
def safe (s : String) : String :=
  String.mk ((collapseWsAux false (jsTrim s.toList)).filter isSafeChar)

/-- A document of the `entries` collection.  Fields are optional because a
stored JS object may lack any of them (in particular `locked`). -/
structure EntryDoc where
  course : Option String
  date : Option String
  hour : Option String
  subject : Option String
  teacher : Option String
  content : Option String
  absences : Option (List String)
  locked : Option Bool
deriving DecidableEq

/-- `makeEntryId(entry)`: a missing field reads as `undefined`, and
`String(s || '')` turns it into the empty string. -/
def makeEntryId (e : EntryDoc) : String :=
  safe (e.course.getD "") ++ "__" ++ safe (e.date.getD "") ++ "__" ++
    safe (e.hour.getD "")

/-- The `entries` collection: an association list from document id to
document, with at most one binding per id in every reachable state. -/
abbrev Store := List (String × EntryDoc)

/-- Read the document at an id (`docRef.get()` / `tx.get`). -/
def Store.get : Store → String → Option EntryDoc
  | [], _ => none
  | p :: t, i => if p.1 == i then some p.2 else Store.get t i

/-- Write the document at an id (`tx.set` / `docRef.set`): replace the
existing binding, or bind a fresh id. -/
def Store.set : Store → String → EntryDoc → Store
  | [], i, d => [(i, d)]
  | p :: t, i, d => if p.1 == i then (i, d) :: t else p :: Store.set t i d

/-- Delete the document at an id (`docRef.delete()` / `tx.delete`). -/
def Store.del (st : Store) (i : String) : Store :=
  st.filter (fun p => p.1 != i)

/-- Result of a facade operation: `{ok:true, id?}` or `{ok:false, reason}`. -/
inductive Res where
  | ok (id : Option String)
  | err (reason : String)
deriving DecidableEq

/-- Firestore `update(data)` on a document, and
`Object.assign({}, oldData, data)`: fields present in `data` win,
missing ones keep the old value. -/
def pickF (n o : Option α) : Option α :=
  match n with
  | some v => some v
  | none => o

/-- Field-wise merge of an update object into a stored document. -/
def mergeEntry (old data : EntryDoc) : EntryDoc where
  course := pickF data.course old.course
  date := pickF data.date old.date
  hour := pickF data.hour old.hour
  subject := pickF data.subject old.subject
  teacher := pickF data.teacher old.teacher
  content := pickF data.content old.content
  absences := pickF data.absences old.absences
  locked := pickF data.locked old.locked

/-- `addEntry(entry)` of the deterministic-key variant: compute the id,
then inside one transaction fail with `duplicate` if the document exists,
else create it verbatim. -/
def addEntry (st : Store) (e : EntryDoc) : Store × Res :=
  let i := makeEntryId e
  match st.get i with
  | some _ => (st, .err "duplicate")
  | none => (st.set i e, .ok (some i))

/-- `updateEntry(oldId, data)` of the deterministic-key variant, including
the rename transaction with its re-checks of the old document. -/
def updateEntry (st : Store) (oldId : String) (data : EntryDoc) : Store × Res :=
  if oldId = "" then (st, .err "missing id")
  else
    match st.get oldId with
    | none => (st, .err "not found")
    | some current =>
      if truthy current.locked then (st, .err "locked")
      else
        let newId := makeEntryId data
        if newId = oldId then
          (st.set oldId (mergeEntry current data), .ok none)
        else
          match st.get newId with
          | some _ => (st, .err "duplicate_target")
          | none =>
            match st.get oldId with
            | none => (st, .err "not_found_during_tx")
            | some oldData =>
              if truthy oldData.locked then (st, .err "locked")
              else
                ((st.set newId (mergeEntry oldData data)).del oldId,
                 .ok (some newId))

/-- `toggleLockEntry(id)`: read the current `locked` value and write its
negation; `not found` if the document is absent. -/
def toggleLockEntry (st : Store) (i : String) : Store × Res :=
  match st.get i with
  | none => (st, .err "not found")
  | some current =>
    (st.set i { current with locked := some (!truthy current.locked) },
     .ok none)

/-- `deleteEntryById(id)`: unconditional delete. -/
def deleteEntryById (st : Store) (i : String) : Store × Res :=
  (st.del i, .ok none)

/-! ### Basic store lemmas -/

@[simp] theorem truthy_some (b : Bool) : truthy (some b) = b := rfl

@[simp] theorem truthy_none : truthy none = false := rfl

theorem get_set_self (st : Store) (i : String) (d : EntryDoc) :
    (st.set i d).get i = some d := by
  induction st with
  | nil => simp [Store.set, Store.get]
  | cons p t ih =>
    by_cases h : p.1 = i
    · simp [Store.set, Store.get, h]
    · simp [Store.set, Store.get, h, ih]

theorem get_set_ne (st : Store) (i j : String) (d : EntryDoc) (h : i ≠ j) :
    (st.set i d).get j = st.get j := by
  induction st with
  | nil => simp [Store.set, Store.get, h, Ne.symm h]
  | cons p t ih =>
    by_cases hp : p.1 = i
    · have hpj : p.1 ≠ j := by rw [hp]; exact h
      simp [Store.set, Store.get, hp, hpj, h, Ne.symm h]
    · by_cases hq : p.1 = j
      · simp [Store.set, Store.get, hp, hq, h, Ne.symm h]
      · simp [Store.set, Store.get, hp, hq, ih]

theorem get_del_self (st : Store) (i : String) : (st.del i).get i = none := by
  induction st with
  | nil => simp [Store.del, Store.get]
  | cons p t ih =>
    by_cases h : p.1 = i
    · simpa [Store.del, List.filter_cons, h] using ih
    · simpa [Store.del, List.filter_cons, Store.get, h] using ih

theorem get_del_ne (st : Store) (i j : String) (h : i ≠ j) :
    (st.del i).get j = st.get j := by
  induction st with
  | nil => simp [Store.del, Store.get]
  | cons p t ih =>
    by_cases hp : p.1 = i
    · have hpj : p.1 ≠ j := by rw [hp]; exact h
      simpa [Store.del, List.filter_cons, Store.get, hp, hpj, h, Ne.symm h]
        using ih
    · by_cases hq : p.1 = j
      · simp [Store.del, List.filter_cons, Store.get, hp, hq, h, Ne.symm h]
      · simpa [Store.del, List.filter_cons, Store.get, hp, hq] using ih

/-! ### Case characterization of `updateEntry`

One disjunct per reachable branch of the source function; the in-transaction
re-checks of the old document are dead in the sequential model because the
transaction body observes the same store as the reads before it. -/

theorem updateEntry_spec (st : Store) (oldId : String) (data : EntryDoc) :
    (oldId = "" ∧ updateEntry st oldId data = (st, .err "missing id")) ∨
    (oldId ≠ "" ∧ st.get oldId = none ∧
      updateEntry st oldId data = (st, .err "not found")) ∨
    (∃ cur, oldId ≠ "" ∧ st.get oldId = some cur ∧ truthy cur.locked = true ∧
      updateEntry st oldId data = (st, .err "locked")) ∨
    (∃ cur, oldId ≠ "" ∧ st.get oldId = some cur ∧ truthy cur.locked = false ∧
      makeEntryId data = oldId ∧
      updateEntry st oldId data =
        (st.set oldId (mergeEntry cur data), .ok none)) ∨
    (∃ cur tgt, oldId ≠ "" ∧ st.get oldId = some cur ∧
      truthy cur.locked = false ∧ makeEntryId data ≠ oldId ∧
      st.get (makeEntryId data) = some tgt ∧
      updateEntry st oldId data = (st, .err "duplicate_target")) ∨
    (∃ cur, oldId ≠ "" ∧ st.get oldId = some cur ∧ truthy cur.locked = false ∧
      makeEntryId data ≠ oldId ∧ st.get (makeEntryId data) = none ∧
      updateEntry st oldId data =
        ((st.set (makeEntryId data) (mergeEntry cur data)).del oldId,
         .ok (some (makeEntryId data)))) := by
  by_cases h0 : oldId = ""
  · exact Or.inl ⟨h0, by simp [updateEntry, h0]⟩
  · cases hget : st.get oldId with
    | none =>
      exact Or.inr (Or.inl ⟨h0, rfl, by simp [updateEntry, h0, hget]⟩)
    | some cur =>
      by_cases hl : truthy cur.locked
      · exact Or.inr (Or.inr (Or.inl
          ⟨cur, h0, rfl, hl, by simp [updateEntry, h0, hget, hl]⟩))
      · have hlf : truthy cur.locked = false := by simpa using hl
        by_cases hid : makeEntryId data = oldId
        · exact Or.inr (Or.inr (Or.inr (Or.inl
            ⟨cur, h0, rfl, hlf, hid,
             by simp [updateEntry, h0, hget, hlf, hid]⟩)))
        · cases hnew : st.get (makeEntryId data) with
          | some tgt =>
            exact Or.inr (Or.inr (Or.inr (Or.inr (Or.inl
              ⟨cur, tgt, h0, rfl, hlf, hid,
               rfl, by simp [updateEntry, h0, hget, hlf, hid, hnew]⟩))))
          | none =>
            exact Or.inr (Or.inr (Or.inr (Or.inr (Or.inr
              ⟨cur, h0, rfl, hlf, hid, rfl,
               by simp [updateEntry, h0, hget, hlf, hid, hnew]⟩))))

/-! ### Concrete documents used by witnesses and counterexamples -/

/-- An entry whose course name contains a space. -/
def entryAB : EntryDoc :=
  ⟨some "A B", some "2024-05-01", some "1", none, none, some "Intro",
   none, none⟩

/-- A distinct entry whose course name sanitizes to the same id. -/
def entryAuB : EntryDoc := { entryAB with course := some "A_B" }

/-- A locked entry. -/
def lockedEntry : EntryDoc :=
  ⟨some "C", some "2024-05-02", some "2", none, none, none, none, some true⟩

/-- A store holding only `lockedEntry` under its natural-key id. -/
def wStore : Store := [("C__2024-05-02__2", lockedEntry)]

/-- An unlocked entry with natural key `(A, 2024-05-01, 1)`. -/
def opaqueDoc : EntryDoc :=
  ⟨some "A", some "2024-05-01", some "1", none, none, some "old", none, none⟩

/-- `opaqueDoc` stored under a server-style opaque id, not its natural key. -/
def storedAtOpaque : Store := [("abc123", opaqueDoc)]

/-- `opaqueDoc` stored under its natural-key id. -/
def naturalStore : Store := [("A__2024-05-01__1", opaqueDoc)]

/-- An update object carrying the same `(course, date, hour)` as
`opaqueDoc` and a new `content`. -/
def sameKeyData : EntryDoc :=
  ⟨some "A", some "2024-05-01", some "1", none, none, some "new", none, none⟩

/-- Source entry for a rename. -/
def srcDoc : EntryDoc :=
  ⟨some "S", some "2024-05-01", some "1", none, none, none, none, none⟩

/-- Entry already occupying the rename target id. -/
def tgtDoc : EntryDoc :=
  ⟨some "T", some "2024-05-01", some "1", none, none, none, none, none⟩

/-- A store holding the rename source and a colliding target. -/
def twoStore : Store :=
  [("S__2024-05-01__1", srcDoc), ("T__2024-05-01__1", tgtDoc)]

/-- A store holding only the rename source. -/
def oneStore : Store := [("S__2024-05-01__1", srcDoc)]

/-- Update object that moves the natural key to `(T, 2024-05-01, 1)`. -/
def renameData : EntryDoc :=
  ⟨some "T", some "2024-05-01", some "1", none, none, none, none, none⟩

/-- An entry whose stored data has no `locked` field at all. -/
def noLockDoc : EntryDoc :=
  ⟨some "N", some "2024-05-03", some "3", none, none, none, none, none⟩

/-- A store holding only `noLockDoc`. -/
def nStore : Store := [("N__2024-05-03__3", noLockDoc)]

/-! ### Claim theorems about the entry operations -/

/-- C1: if no entry is stored under the natural-key id of `e1`, the first
`addEntry` succeeds and creates the entry; a second `addEntry` whose entry
has the same `(course, date, hour)` natural key returns
`{ok:false, reason:'duplicate'}`, changes nothing, and leaves the entry
stored by the first call unchanged — so `addEntry` succeeds at most once
per natural key. -/
theorem addEntry_at_most_once_per_key
    (st : Store) (e1 e2 : EntryDoc)
    (hfresh : st.get (makeEntryId e1) = none)
    (hc : e2.course = e1.course) (hd : e2.date = e1.date)
    (hh : e2.hour = e1.hour) :
    (addEntry st e1).2 = .ok (some (makeEntryId e1)) ∧
    (addEntry st e1).1.get (makeEntryId e1) = some e1 ∧
    (addEntry (addEntry st e1).1 e2).2 = .err "duplicate" ∧
    (addEntry (addEntry st e1).1 e2).1 = (addEntry st e1).1 ∧
    (addEntry (addEntry st e1).1 e2).1.get (makeEntryId e1) = some e1 := by
  have hkey : makeEntryId e2 = makeEntryId e1 := by
    simp [makeEntryId, hc, hd, hh]
  have h1 : addEntry st e1 =
      (st.set (makeEntryId e1) e1, .ok (some (makeEntryId e1))) := by
    simp [addEntry, hfresh]
  have hget : (st.set (makeEntryId e1) e1).get (makeEntryId e1) = some e1 :=
    get_set_self st (makeEntryId e1) e1
  have h2 : addEntry (st.set (makeEntryId e1) e1) e2 =
      (st.set (makeEntryId e1) e1, .err "duplicate") := by
    simp [addEntry, hkey, hget]
  rw [h1]
  exact ⟨rfl, hget, by rw [h2], by rw [h2], by rw [h2]; exact hget⟩

/-- Witness for C1 at a concrete input. -/
theorem addEntry_at_most_once_per_key_witness :
    (addEntry ([] : Store) entryAB).2 = .ok (some "A_B__2024-05-01__1") ∧
    (addEntry (addEntry ([] : Store) entryAB).1 entryAB).2 =
      .err "duplicate" := by
  have h := addEntry_at_most_once_per_key ([] : Store) entryAB entryAB
    (by decide) rfl rfl rfl
  exact ⟨h.1.trans (by decide), h.2.2.1⟩

/-- C2: renaming an entry's natural key to an id already in use fails with
`duplicate_target` and leaves the whole store — in particular both the
source and the colliding target document — unchanged; a successful rename
performs both the create of the new document and the delete of the old one;
and every failing `updateEntry` leaves the store untouched, so neither step
ever happens without the other. -/
theorem updateEntry_rename_atomic
    (st : Store) (oldId : String) (data : EntryDoc) :
    (∀ cur tgt, oldId ≠ "" → st.get oldId = some cur →
      truthy cur.locked = false → makeEntryId data ≠ oldId →
      st.get (makeEntryId data) = some tgt →
      updateEntry st oldId data = (st, .err "duplicate_target")) ∧
    (∀ cur, oldId ≠ "" → st.get oldId = some cur →
      truthy cur.locked = false → makeEntryId data ≠ oldId →
      st.get (makeEntryId data) = none →
      updateEntry st oldId data =
        ((st.set (makeEntryId data) (mergeEntry cur data)).del oldId,
         .ok (some (makeEntryId data))) ∧
      (updateEntry st oldId data).1.get (makeEntryId data) =
        some (mergeEntry cur data) ∧
      (updateEntry st oldId data).1.get oldId = none) ∧
    (∀ r, (updateEntry st oldId data).2 = .err r →
      (updateEntry st oldId data).1 = st) := by
  refine ⟨?_, ?_, ?_⟩
  · intro cur tgt h0 h1 h2 h3 h4
    simp [updateEntry, h0, h1, h2, h3, h4]
  · intro cur h0 h1 h2 h3 h4
    have he : updateEntry st oldId data =
        ((st.set (makeEntryId data) (mergeEntry cur data)).del oldId,
         .ok (some (makeEntryId data))) := by
      simp [updateEntry, h0, h1, h2, h3, h4]
    refine ⟨he, ?_, ?_⟩
    · rw [he]
      rw [get_del_ne _ _ _ (Ne.symm h3)]
      exact get_set_self ..
    · rw [he]
      exact get_del_self ..
  · intro r hr
    rcases updateEntry_spec st oldId data with h | h | h | h | h | h
    · rw [h.2]
    · rw [h.2.2]
    · obtain ⟨cur, _, _, _, heq⟩ := h
      rw [heq]
    · obtain ⟨cur, _, _, _, _, heq⟩ := h
      rw [heq] at hr ⊢
      simp at hr
    · obtain ⟨cur, tgt, _, _, _, _, _, heq⟩ := h
      rw [heq]
    · obtain ⟨cur, _, _, _, _, _, heq⟩ := h
      rw [heq] at hr ⊢
      simp at hr

/-- Witness for C2: a colliding rename fails and changes nothing, and a
non-colliding rename creates the new id and deletes the old one. -/
theorem updateEntry_rename_atomic_witness :
    updateEntry twoStore "S__2024-05-01__1" renameData =
      (twoStore, .err "duplicate_target") ∧
    (updateEntry oneStore "S__2024-05-01__1" renameData).1.get
      "T__2024-05-01__1" = some (mergeEntry srcDoc renameData) ∧
    (updateEntry oneStore "S__2024-05-01__1" renameData).1.get
      "S__2024-05-01__1" = none := by
  have hdup := (updateEntry_rename_atomic twoStore "S__2024-05-01__1"
    renameData).1 srcDoc tgtDoc (by decide) (by decide) (by decide)
    (by decide) (by decide)
  have hok := (updateEntry_rename_atomic oneStore "S__2024-05-01__1"
    renameData).2.1 srcDoc (by decide) (by decide) (by decide)
    (by decide) (by decide)
  exact ⟨hdup, hok.2.1, hok.2.2⟩

/-- C3: `updateEntry` on a locked entry's id fails with reason `locked`
leaving the store unchanged; `addEntry` and `updateEntry` (with any
arguments) never change a stored locked entry; and the two operations that
can affect it are `toggleLockEntry`, which flips its flag, and
`deleteEntryById`, which removes it.  The meta operations act on the
separate metadata document and never touch the entries collection. -/
theorem locked_entry_immutable
    (st : Store) (i : String) (e : EntryDoc)
    (he : st.get i = some e) (hl : truthy e.locked = true) :
    (∀ data, i ≠ "" → updateEntry st i data = (st, .err "locked")) ∧
    (∀ e2, ((addEntry st e2).1).get i = some e) ∧
    (∀ oldId data, ((updateEntry st oldId data).1).get i = some e) ∧
    ((toggleLockEntry st i).1.get i = some { e with locked := some false }) ∧
    ((deleteEntryById st i).1.get i = none) := by
  refine ⟨?_, ?_, ?_, ?_, ?_⟩
  · intro data h0
    simp [updateEntry, h0, he, hl]
  · intro e2
    cases hget : st.get (makeEntryId e2) with
    | some d => simp [addEntry, hget, he]
    | none =>
      have hne : makeEntryId e2 ≠ i := by
        intro hcontra
        rw [hcontra, he] at hget
        exact Option.noConfusion hget
      simp [addEntry, hget, get_set_ne _ _ _ _ hne, he]
  · intro oldId data
    rcases updateEntry_spec st oldId data with h | h | h | h | h | h
    · rw [h.2]; exact he
    · rw [h.2.2]; exact he
    · obtain ⟨cur, _, _, _, heq⟩ := h
      rw [heq]; exact he
    · obtain ⟨cur, _, h1, h2, _, heq⟩ := h
      have hne : oldId ≠ i := by
        intro hcontra
        rw [hcontra, he] at h1
        rw [Option.some_inj.mp h1] at hl
        rw [hl] at h2
        exact Bool.noConfusion h2
      rw [heq, get_set_ne _ _ _ _ hne]
      exact he
    · obtain ⟨cur, tgt, _, _, _, _, _, heq⟩ := h
      rw [heq]; exact he
    · obtain ⟨cur, _, h1, h2, _, hnone, heq⟩ := h
      have hne : oldId ≠ i := by
        intro hcontra
        rw [hcontra, he] at h1
        rw [Option.some_inj.mp h1] at hl
        rw [hl] at h2
        exact Bool.noConfusion h2
      have hnew : makeEntryId data ≠ i := by
        intro hcontra
        rw [hcontra, he] at hnone
        exact Option.noConfusion hnone
      rw [heq, get_del_ne _ _ _ hne, get_set_ne _ _ _ _ hnew]
      exact he
  · simp [toggleLockEntry, he, hl, get_set_self]
  · exact get_del_self st i

/-- Witness for C3 at a concrete locked entry. -/
theorem locked_entry_immutable_witness :
    updateEntry wStore "C__2024-05-02__2" sameKeyData =
      (wStore, .err "locked") ∧
    ((addEntry wStore entryAB).1).get "C__2024-05-02__2" =
      some lockedEntry ∧
    (toggleLockEntry wStore "C__2024-05-02__2").1.get "C__2024-05-02__2" =
      some { lockedEntry with locked := some false } ∧
    (deleteEntryById wStore "C__2024-05-02__2").1.get "C__2024-05-02__2" =
      none := by
  have h := locked_entry_immutable wStore "C__2024-05-02__2" lockedEntry
    (by decide) (by decide)
  exact ⟨h.1 sameKeyData (by decide), h.2.1 entryAB, h.2.2.2.1, h.2.2.2.2⟩

/-- C4 counterexample: `opaqueDoc` is stored unlocked under the opaque id
`abc123`, and `sameKeyData` carries exactly the stored
`(course, date, hour)` triple — the natural key is unchanged — yet
`updateEntry` does not perform a direct field update at the same id: it
removes the document at `abc123` and re-creates it under the sanitized
natural-key id, because the code compares `makeEntryId(newFields)` with the
stored id, not with the stored natural key. -/
theorem updateEntry_key_unchanged_not_direct_cex :
    Store.get storedAtOpaque "abc123" = some opaqueDoc ∧
    truthy opaqueDoc.locked = false ∧
    sameKeyData.course = opaqueDoc.course ∧
    sameKeyData.date = opaqueDoc.date ∧
    sameKeyData.hour = opaqueDoc.hour ∧
    (updateEntry storedAtOpaque "abc123" sameKeyData).1.get "abc123" =
      none ∧
    (updateEntry storedAtOpaque "abc123" sameKeyData).2 =
      .ok (some "A__2024-05-01__1") := by decide

/-- C4 (amended): for every existing unlocked entry and `newFields` whose
recomputed document id `makeEntryId newFields` equals the entry's stored id
— in particular whenever the entry sits under its natural-key id and
`newFields` leaves the natural key unchanged — `updateEntry` performs a
direct field update on the existing document at the same id (no rename, no
copy-and-delete) and returns success. -/
theorem updateEntry_same_id_direct
    (st : Store) (i : String) (data cur : EntryDoc)
    (h0 : i ≠ "") (h1 : st.get i = some cur)
    (h2 : truthy cur.locked = false) (h3 : makeEntryId data = i) :
    updateEntry st i data = (st.set i (mergeEntry cur data), .ok none) ∧
    (updateEntry st i data).1.get i = some (mergeEntry cur data) := by
  have he : updateEntry st i data =
      (st.set i (mergeEntry cur data), .ok none) := by
    simp [updateEntry, h0, h1, h2, h3]
  exact ⟨he, by rw [he]; exact get_set_self ..⟩

/-- Witness for C4 (amended) at a concrete input. -/
theorem updateEntry_same_id_direct_witness :
    updateEntry naturalStore "A__2024-05-01__1" sameKeyData =
      (Store.set naturalStore "A__2024-05-01__1"
        (mergeEntry opaqueDoc sameKeyData), .ok none) :=
  (updateEntry_same_id_direct naturalStore "A__2024-05-01__1" sameKeyData
    opaqueDoc (by decide) (by decide) (by decide) (by decide)).1

/-- C5: `updateEntry` fails with `missing id` on an empty id, with
`not found` (writing nothing) when no entry has the id, and with `locked`
when the entry's `locked` flag is true. -/
theorem updateEntry_failure_preconditions
    (st : Store) (i : String) (data : EntryDoc) :
    (updateEntry st "" data = (st, .err "missing id")) ∧
    (i ≠ "" → st.get i = none →
      updateEntry st i data = (st, .err "not found")) ∧
    (∀ e, i ≠ "" → st.get i = some e → truthy e.locked = true →
      updateEntry st i data = (st, .err "locked")) := by
  refine ⟨by simp [updateEntry], ?_, ?_⟩
  · intro h0 h1
    simp [updateEntry, h0, h1]
  · intro e h0 h1 h2
    simp [updateEntry, h0, h1, h2]

/-- Witness for C5 at concrete inputs. -/
theorem updateEntry_failure_preconditions_witness :
    updateEntry wStore "" sameKeyData = (wStore, .err "missing id") ∧
    updateEntry wStore "nope" sameKeyData = (wStore, .err "not found") ∧
    updateEntry wStore "C__2024-05-02__2" sameKeyData =
      (wStore, .err "locked") := by
  have ha := updateEntry_failure_preconditions wStore "C__2024-05-02__2"
    sameKeyData
  have hb := updateEntry_failure_preconditions wStore "nope" sameKeyData
  exact ⟨ha.1, hb.2.1 (by decide) (by decide),
    ha.2.2 lockedEntry (by decide) (by decide) (by decide)⟩

/-- C6: on an existing entry, one `toggleLockEntry` succeeds and replaces
the `locked` flag by the negation of its effective (truthiness) value, and
a second application returns the entry to its original lock state. -/
theorem toggleLockEntry_involutive
    (st : Store) (i : String) (e : EntryDoc) (he : st.get i = some e) :
    (toggleLockEntry st i).2 = .ok none ∧
    (toggleLockEntry st i).1.get i =
      some { e with locked := some (!truthy e.locked) } ∧
    (toggleLockEntry (toggleLockEntry st i).1 i).1.get i =
      some { e with locked := some (truthy e.locked) } ∧
    (∀ e2, (toggleLockEntry (toggleLockEntry st i).1 i).1.get i = some e2 →
      truthy e2.locked = truthy e.locked) := by
  have h1 : toggleLockEntry st i =
      (st.set i { e with locked := some (!truthy e.locked) }, .ok none) := by
    simp [toggleLockEntry, he]
  have hg1 : (st.set i { e with locked := some (!truthy e.locked) }).get i =
      some { e with locked := some (!truthy e.locked) } := get_set_self ..
  have h2 : toggleLockEntry
      (st.set i { e with locked := some (!truthy e.locked) }) i =
      ((st.set i { e with locked := some (!truthy e.locked) }).set i
        { e with locked := some (truthy e.locked) }, .ok none) := by
    rw [show toggleLockEntry
        (st.set i { e with locked := some (!truthy e.locked) }) i =
        ((st.set i { e with locked := some (!truthy e.locked) }).set i
          { e with locked := some (!truthy (some (!truthy e.locked))) },
         .ok none) from by simp [toggleLockEntry, hg1]]
    rw [show (!truthy (some (!truthy e.locked))) = truthy e.locked from by
      simp [Bool.not_not]]
  have hg2 : ((st.set i { e with locked := some (!truthy e.locked) }).set i
      { e with locked := some (truthy e.locked) }).get i =
      some { e with locked := some (truthy e.locked) } := get_set_self ..
  have hst1 : (toggleLockEntry st i).1 =
      st.set i { e with locked := some (!truthy e.locked) } := by rw [h1]
  have hst2 : (toggleLockEntry
      (st.set i { e with locked := some (!truthy e.locked) }) i).1 =
      (st.set i { e with locked := some (!truthy e.locked) }).set i
        { e with locked := some (truthy e.locked) } := by rw [h2]
  refine ⟨by rw [h1], by rw [hst1]; exact hg1, ?_, ?_⟩
  · rw [hst1, hst2]
    exact hg2
  · intro e2 hsome
    rw [hst1, hst2, hg2] at hsome
    rw [← Option.some_inj.mp hsome]
    rfl

/-- Witness for C6: toggling the concrete locked entry twice restores its
lock state. -/
theorem toggleLockEntry_involutive_witness :
    (toggleLockEntry wStore "C__2024-05-02__2").2 = .ok none ∧
    (toggleLockEntry (toggleLockEntry wStore "C__2024-05-02__2").1
      "C__2024-05-02__2").1.get "C__2024-05-02__2" =
      some { lockedEntry with locked := some true } := by
  have h := toggleLockEntry_involutive wStore "C__2024-05-02__2" lockedEntry
    (by decide)
  exact ⟨h.1, h.2.2.1⟩

/-- C9: the deterministic id function is not injective on natural keys —
the distinct courses `A B` and `A_B` with identical date and hour sanitize
to the same document id, so after `addEntry` succeeds for the first triple,
`addEntry` for the second distinct triple returns
`{ok:false, reason:'duplicate'}`. -/
theorem makeEntryId_not_injective_duplicate :
    entryAB.course ≠ entryAuB.course ∧
    makeEntryId entryAB = makeEntryId entryAuB ∧
    (addEntry ([] : Store) entryAB).2 = .ok (some "A_B__2024-05-01__1") ∧
    (addEntry (addEntry ([] : Store) entryAB).1 entryAuB).2 =
      .err "duplicate" := by decide

/-- C10: an existing entry whose stored data has no `locked` field at all
behaves exactly like `locked = false` at the public interface:
`toggleLockEntry` treats it as unlocked and sets `locked` to `true`;
`updateEntry` never rejects it with reason `locked`; and every
`updateEntry` on its id returns the same result as it would if the entry
carried an explicit `locked = false`. -/
theorem missing_locked_behaves_unlocked
    (st : Store) (i : String) (e : EntryDoc)
    (he : st.get i = some e) (hml : e.locked = none) :
    ((toggleLockEntry st i).2 = .ok none ∧
      (toggleLockEntry st i).1.get i = some { e with locked := some true }) ∧
    (∀ data r, i ≠ "" → (updateEntry st i data).2 = .err r →
      r ≠ "locked") ∧
    (∀ data, (updateEntry st i data).2 =
      (updateEntry (st.set i { e with locked := some false }) i data).2) := by
  have htr : truthy e.locked = false := by rw [hml]; rfl
  refine ⟨?_, ?_, ?_⟩
  · constructor
    · simp [toggleLockEntry, he]
    · simp [toggleLockEntry, he, htr, get_set_self]
  · intro data r h0 hr
    rcases updateEntry_spec st i data with h | h | h | h | h | h
    · exact absurd h.1 h0
    · rw [he] at h
      exact Option.noConfusion h.2.1
    · obtain ⟨cur, _, h1, h2, _⟩ := h
      rw [he] at h1
      rw [← Option.some_inj.mp h1, htr] at h2
      exact Bool.noConfusion h2
    · obtain ⟨cur, _, _, _, _, heq⟩ := h
      rw [heq] at hr
      exact Res.noConfusion hr
    · obtain ⟨cur, tgt, _, _, _, _, _, heq⟩ := h
      rw [heq] at hr
      have : r = "duplicate_target" := (Res.err.injEq .. ▸ hr).symm
      rw [this]
      decide
    · obtain ⟨cur, _, _, _, _, _, heq⟩ := h
      rw [heq] at hr
      exact Res.noConfusion hr
  · intro data
    by_cases h0 : i = ""
    · simp [updateEntry, h0]
    · have hg2 : (st.set i { e with locked := some false }).get i =
          some { e with locked := some false } := get_set_self ..
      by_cases hid : makeEntryId data = i
      · simp [updateEntry, h0, he, hg2, htr, hid]
      · have hnew : (st.set i { e with locked := some false }).get
            (makeEntryId data) = st.get (makeEntryId data) :=
          get_set_ne _ _ _ _ (fun hh => hid hh.symm)
        cases hcase : st.get (makeEntryId data) with
        | some tgt =>
          simp [updateEntry, h0, he, hg2, htr, hid, hnew, hcase]
        | none =>
          simp [updateEntry, h0, he, hg2, htr, hid, hnew, hcase]

/-! ### Metadata model (part_000 variant) and failure-masked reads -/

/-- A per-course timetable object: one optional array of lesson-slot labels
per weekday. -/
structure Timetable where
  mon : Option (List String)
  tue : Option (List String)
  wed : Option (List String)
  thu : Option (List String)
  fri : Option (List String)
deriving DecidableEq

/-- A course object inside the metadata document. -/
structure Course0 where
  id : Option String
  name : Option String
  students : Option (List String)
  timetable : Option Timetable
deriving DecidableEq

/-- The singleton metadata document `meta/kb_meta`. -/
structure MetaDoc0 where
  courses : Option (List Course0)
  subjects : Option (List String)
  teachers : Option (List String)
deriving DecidableEq

/-- The literal `{ courses:[], subjects:[], teachers:[] }` default. -/
def emptyMeta : MetaDoc0 := ⟨some [], some [], some []⟩

/-- Outcome of a single-document backend read: the document (or its
absence), or a thrown backend failure. -/
inductive ReadOutcome (α : Type) where
  | success (doc : Option α)
  | failure

/-- `loadMeta()`: the document when the read succeeds and it exists,
otherwise the empty default — both for an absent document and for a thrown
read failure (the `catch` branch).  Totality of this function is the
embedding of never raising to the caller. -/
def loadMeta : ReadOutcome MetaDoc0 → MetaDoc0
  | .success none => emptyMeta
  | .success (some d) => d
  | .failure => emptyMeta

/-- Outcome of a collection query: the returned documents, or a thrown
failure (e.g. a missing composite index). -/
inductive QueryOutcome where
  | success (docs : List (String × EntryDoc))
  | failure

/-- `loadEntries()`: the ordered query's documents when it succeeds, else
the plain fallback query's documents, else `[]` — never a raised
failure. -/
def loadEntries : QueryOutcome → QueryOutcome → List (String × EntryDoc)
  | .success docs, _ => docs
  | .failure, .success docs => docs
  | .failure, .failure => []

/-- C8: for every backend outcome, `loadMeta` returns the metadata document
or the empty default `{courses:[], subjects:[], teachers:[]}` and never
raises, and `loadEntries` returns an entry list produced by one of its two
queries or the empty sequence and never raises; read failures are masked by
these defaults. -/
theorem reads_never_raise :
    (∀ d, loadMeta (.success (some d)) = d) ∧
    loadMeta (.success none) = emptyMeta ∧
    loadMeta .failure = emptyMeta ∧
    (∀ o, loadMeta o = emptyMeta ∨
      ∃ d, o = .success (some d) ∧ loadMeta o = d) ∧
    (∀ docs o2, loadEntries (.success docs) o2 = docs) ∧
    (∀ docs, loadEntries .failure (.success docs) = docs) ∧
    loadEntries .failure .failure = [] ∧
    (∀ o1 o2, loadEntries o1 o2 = [] ∨
      ∃ docs, loadEntries o1 o2 = docs ∧
        (o1 = .success docs ∨ (o1 = .failure ∧ o2 = .success docs))) := by
  refine ⟨fun d => rfl, rfl, rfl, ?_, fun docs o2 => rfl, fun docs => rfl,
    rfl, ?_⟩
  · intro o
    match o with
    | .failure => exact Or.inl rfl
    | .success none => exact Or.inl rfl
    | .success (some d) => exact Or.inr ⟨d, rfl, rfl⟩
  · intro o1 o2
    match o1, o2 with
    | .success docs, o2 => exact Or.inr ⟨docs, rfl, Or.inl rfl⟩
    | .failure, .success docs => exact Or.inr ⟨docs, rfl, Or.inr ⟨rfl, rfl⟩⟩
    | .failure, .failure => exact Or.inl rfl

/-! ### `ensureDefaults` of the part_000 variant: timetable normalization -/

/-- The literal six-slot blank day `['','','','','','']`. -/
def blankDay : List String := ["", "", "", "", "", ""]

/-- The default timetable assigned to a course without one. -/
def defaultTimetable : Timetable :=
  ⟨some blankDay, some blankDay, some blankDay, some blankDay, some blankDay⟩

/-- `while (arr.length < 6) arr.push('')`. -/
def padSix (l : List String) : List String :=
  l ++ List.replicate (6 - l.length) ""

/-- Normalization of one weekday slot array: a missing (non-array) value
becomes the blank day; an array of length other than 6 is truncated with
`slice(0,6)` and padded; a length-6 array is left alone.  The flag mirrors
the `changed` variable. -/
def normalizeDay : Option (List String) → List String × Bool
  | none => (blankDay, true)
  | some l => if l.length = 6 then (l, false) else (padSix (l.take 6), true)

/-- Normalization of a whole timetable, one weekday at a time. -/
def normalizeTimetable (tt : Timetable) : Timetable × Bool :=
  let m := normalizeDay tt.mon
  let tu := normalizeDay tt.tue
  let w := normalizeDay tt.wed
  let th := normalizeDay tt.thu
  let f := normalizeDay tt.fri
  (⟨some m.1, some tu.1, some w.1, some th.1, some f.1⟩,
   m.2 || tu.2 || w.2 || th.2 || f.2)

/-- Per-course step of `ensureDefaults`: install the default timetable when
missing, else normalize the existing one. -/
def normalizeCourse (c : Course0) : Course0 × Bool :=
  match c.timetable with
  | none => ({ c with timetable := some defaultTimetable }, true)
  | some tt =>
    let r := normalizeTimetable tt
    ({ c with timetable := some r.1 }, r.2)

/-- The `forEach` over `meta.courses`, accumulating the `changed` flag. -/
def normalizeCourses : List Course0 → List Course0 × Bool
  | [] => ([], false)
  | c :: cs =>
    let r := normalizeCourse c
    let rs := normalizeCourses cs
    (r.1 :: rs.1, r.2 || rs.2)

/-- `if (!meta.f) { meta.f = []; changed = true; }` for an array field. -/
def listOrEmpty (o : Option (List α)) : List α × Bool :=
  match o with
  | none => ([], true)
  | some l => (l, false)

/-- The whole body of `ensureDefaults` up to the conditional save. -/
def normalizeMeta (m : MetaDoc0) : MetaDoc0 × Bool :=
  let cs := listOrEmpty m.courses
  let sj := listOrEmpty m.subjects
  let tc := listOrEmpty m.teachers
  let nc := normalizeCourses cs.1
  (⟨some nc.1, some sj.1, some tc.1⟩, cs.2 || sj.2 || tc.2 || nc.2)

/-- Firestore `set(meta, {merge:true})` on the metadata document: fields
present in the written object win, absent ones keep the stored value; an
absent document is created. -/
def mergeMeta0 (old new : MetaDoc0) : MetaDoc0 :=
  ⟨pickF new.courses old.courses, pickF new.subjects old.subjects,
   pickF new.teachers old.teachers⟩

/-- `saveMeta(meta)` applied to the stored metadata state. -/
def saveMeta (st : Option MetaDoc0) (m : MetaDoc0) : Option MetaDoc0 :=
  some (mergeMeta0 (st.getD ⟨none, none, none⟩) m)

/-- `ensureDefaults()` of the part_000 variant: load (with the absent-doc
default), normalize, and save only if something changed. -/
def ensureDefaults (st : Option MetaDoc0) : Option MetaDoc0 :=
  let m := loadMeta (.success st)
  let r := normalizeMeta m
  if r.2 then saveMeta st r.1 else st

theorem normalizeDay_len (o : Option (List String)) :
    (normalizeDay o).1.length = 6 := by
  match o with
  | none => rfl
  | some l =>
    by_cases h : l.length = 6
    · simp [normalizeDay, h]
    · simp [normalizeDay, h, padSix]

theorem normalizeDay_of_len6 (l : List String) (h : l.length = 6) :
    normalizeDay (some l) = (l, false) := by
  simp [normalizeDay, h]

theorem normalizeDay_idem (o : Option (List String)) :
    normalizeDay (some (normalizeDay o).1) = ((normalizeDay o).1, false) :=
  normalizeDay_of_len6 _ (normalizeDay_len o)

theorem normalizeTimetable_idem (tt : Timetable) :
    normalizeTimetable (normalizeTimetable tt).1 =
      ((normalizeTimetable tt).1, false) := by
  simp [normalizeTimetable, normalizeDay_idem]

theorem normalizeTimetable_default :
    normalizeTimetable defaultTimetable = (defaultTimetable, false) := by
  decide

theorem normalizeCourse_idem (c : Course0) :
    normalizeCourse (normalizeCourse c).1 = ((normalizeCourse c).1, false) := by
  match hc : c.timetable with
  | none => simp [normalizeCourse, hc, normalizeTimetable_default]
  | some tt => simp [normalizeCourse, hc, normalizeTimetable_idem]

theorem normalizeCourses_idem (cs : List Course0) :
    normalizeCourses (normalizeCourses cs).1 =
      ((normalizeCourses cs).1, false) := by
  induction cs with
  | nil => rfl
  | cons c t ih => simp [normalizeCourses, normalizeCourse_idem, ih]

theorem normalizeMeta_idem (m : MetaDoc0) :
    normalizeMeta (normalizeMeta m).1 = ((normalizeMeta m).1, false) := by
  simp [normalizeMeta, listOrEmpty, normalizeCourses_idem]

/-- Idempotency of the normalization variant of `ensureDefaults`. -/
theorem ensureDefaults_meta_idem (st : Option MetaDoc0) :
    ensureDefaults (ensureDefaults st) = ensureDefaults st := by
  by_cases hch : (normalizeMeta (loadMeta (.success st))).2 = true
  · have hsave : ensureDefaults st =
        some (normalizeMeta (loadMeta (.success st))).1 := by
      simp only [ensureDefaults, hch, if_true, saveMeta]
      simp [normalizeMeta, mergeMeta0, pickF]
    rw [hsave]
    simp [ensureDefaults, loadMeta, normalizeMeta_idem]
  · have hnone : ensureDefaults st = st := by
      simp [ensureDefaults, hch]
    rw [hnone]
    exact hnone

/-! ### The seeding variant (part_001)

Modelled in its own namespace.  The backend reads succeed in this model
(the failure-masking behavior is the subject of the read-outcome model
above); `Math.random()`-generated course ids and Firestore auto ids for
`collection.add` are drawn from a counter carried in the state. -/

namespace Seed

/-- A course object of the seeding variant. -/
structure Course1 where
  id : String
  name : String
  students : Option (List String)
deriving DecidableEq

/-- One element of a stored `courses` array that holds objects:
`null` or a course object. -/
inductive CItem where
  | cnull
  | cobj (c : Course1)
deriving DecidableEq

/-- The value of the `courses` field: either a legacy array of plain course
name strings, or an array of (possibly null) course objects.  The facade
itself only ever writes object arrays; the legacy form models
pre-migration data.  (A backend array mixing strings and objects is outside
the model: on such data the strict-mode fixup in the source would throw.) -/
inductive CoursesVal where
  | legacy (names : List String)
  | current (items : List CItem)
deriving DecidableEq

/-- The metadata document of the seeding variant.  `students` is the
document-level list consulted by the legacy-courses migration. -/
structure MetaDoc1 where
  courses : Option CoursesVal
  subjects : Option (List String)
  teachers : Option (List String)
  students : Option (List String)
deriving DecidableEq

/-- An entry document of the seeding variant; `createdAt` records whether
the server-timestamp marker was attached. -/
structure Entry1 where
  course : String
  subject : String
  teacher : String
  date : String
  hour : String
  content : String
  absences : List String
  locked : Bool
  createdAt : Bool
deriving DecidableEq

/-- Whole backend state: metadata document, entries collection, a counter
feeding the random course-id generator and the auto-generated document ids,
and the current date used for the seeded sample entry. -/
structure State1 where
  meta : Option MetaDoc1
  entries : List (String × Entry1)
  counter : Nat
  today : String
deriving DecidableEq

/-- A fresh `'kurs_' + Math.random().toString(36).slice(2,8)` id, drawn
from the state counter; only its non-emptiness matters. -/
def freshId (n : Nat) : String := "kurs_" ++ toString n

/-- A fresh Firestore auto id for `collection.add`, drawn from the same
counter. -/
def autoId (n : Nat) : String := "auto_" ++ toString n

/-- The per-course fixup run by `loadMeta` and again by `ensureDefaults`:
a null course becomes `{id:'', name:'', students:[]}`; a course object gets
`students` defaulted to `[]` and a falsy (empty) `id` replaced by the
`name` when truthy, else by a fresh random id. -/
def fixItem (ctr : Nat) : CItem → CItem × Nat
  | .cnull => (.cobj ⟨"", "", some []⟩, ctr)
  | .cobj c =>
    let c1 : Course1 := { c with students := some (c.students.getD []) }
    if c1.id ≠ "" then (.cobj c1, ctr)
    else if c1.name ≠ "" then (.cobj { c1 with id := c1.name }, ctr)
    else (.cobj { c1 with id := freshId ctr }, ctr + 1)

/-- `courses.map(fixItem)`, threading the random counter. -/
def fixItems (ctr : Nat) : List CItem → List CItem × Nat
  | [] => ([], ctr)
  | it :: its =>
    let r := fixItem ctr it
    let rs := fixItems r.2 its
    (r.1 :: rs.1, rs.2)

/-- The string-array migration of `loadMeta`: a legacy array of names
becomes objects `{id:name, name, students: data.students || []}`;
an object array is taken as is; an absent field maps over `[]`.  (An empty
legacy array is the same backend value `[]` as an empty object array.) -/
def migrateCourses (ds : List String) : Option CoursesVal → List CItem
  | none => []
  | some (.legacy l) => l.map (fun n => .cobj ⟨n, n, some ds⟩)
  | some (.current items) => items

/-- `loadMeta()` of the seeding variant: the literal default for an absent
document, else the document with its `courses` migrated and fixed. -/
def loadMeta (meta : Option MetaDoc1) (ctr : Nat) : MetaDoc1 × Nat :=
  match meta with
  | none => (⟨some (.current []), some [], some [], none⟩, ctr)
  | some d =>
    let r := fixItems ctr (migrateCourses (d.students.getD []) d.courses)
    ({ d with courses := some (.current r.1) }, r.2)

/-- `set(meta, {merge:true})` field-wise on the four modelled fields. -/
def mergeMeta1 (old new : MetaDoc1) : MetaDoc1 :=
  ⟨pickF new.courses old.courses, pickF new.subjects old.subjects,
   pickF new.teachers old.teachers, pickF new.students old.students⟩

/-- `saveMeta(meta)` applied to the stored metadata state. -/
def saveMeta (meta : Option MetaDoc1) (m : MetaDoc1) : Option MetaDoc1 :=
  some (mergeMeta1 (meta.getD ⟨none, none, none, none⟩) m)

/-- `Array.isArray(x) && x.length > 0` for the courses field. -/
def hasItems : Option CoursesVal → Bool
  | none => false
  | some (.legacy l) => decide (0 < l.length)
  | some (.current l) => decide (0 < l.length)

/-- `Array.isArray(x) && x.length > 0` for a string-list field. -/
def hasList : Option (List String) → Bool
  | none => false
  | some l => decide (0 < l.length)

/-- The canned default metadata seeded into an entirely empty store. -/
def defaultMeta : MetaDoc1 :=
  ⟨some (.current [.cobj ⟨"RSA261", "RSA261",
      some ["Max Mustermann", "Anna Beispiel"]⟩]),
   some ["Mathematik", "Deutsch", "Englisch"],
   some ["Frau Müller", "Herr Schmidt"], none⟩

/-- The canned sample entry seeded into an empty entries collection. -/
def sampleEntry (today : String) : Entry1 :=
  ⟨"RSA261", "Mathematik", "Frau Müller", today, "1",
   "Einführung (Beispiel)", [], false, true⟩

/-- `(date, hour)` ordering of stored entries as used by
`orderBy('date').orderBy('hour')`. -/
def entryLe (a b : String × Entry1) : Bool :=
  decide (a.2.date < b.2.date) ||
    (a.2.date == b.2.date && decide (a.2.hour ≤ b.2.hour))

/-- Ordered insertion for the query result. -/
def insertEntry (x : String × Entry1) :
    List (String × Entry1) → List (String × Entry1)
  | [] => [x]
  | y :: t => if entryLe x y then x :: y :: t else y :: insertEntry x t

/-- Insertion sort by `(date, hour)`. -/
def sortEntries : List (String × Entry1) → List (String × Entry1)
  | [] => []
  | x :: t => insertEntry x (sortEntries t)

/-- `loadEntries()` of the seeding variant on a successful backend query:
all entries ordered by `(date, hour)`. -/
def loadEntries (es : List (String × Entry1)) : List (String × Entry1) :=
  sortEntries es

/-- The items of the loaded courses field.  `loadMeta` always yields a
`.current` array, so the other branches are dead; in JS the same map over a
non-empty legacy string array would throw in strict mode. -/
def coursesItems : Option CoursesVal → List CItem
  | some (.current l) => l
  | some (.legacy _) => []
  | none => []

/-- `ensureDefaults()` of the seeding variant (part_001): seed the canned
metadata when courses, subjects and teachers are all empty, else re-run the
course fixup and save; then seed one sample entry if the entries collection
is empty. -/
def ensureDefaults (st : State1) : State1 :=
  let lm := loadMeta st.meta st.counter
  let m := lm.1
  let afterMeta : Option MetaDoc1 × Nat :=
    if !hasItems m.courses && !hasList m.subjects && !hasList m.teachers then
      (saveMeta st.meta defaultMeta, lm.2)
    else
      let fr := fixItems lm.2 (coursesItems m.courses)
      (saveMeta st.meta { m with courses := some (.current fr.1) }, fr.2)
  let es := loadEntries st.entries
  if es.length = 0 then
    ⟨afterMeta.1, st.entries ++ [(autoId afterMeta.2, sampleEntry st.today)],
     afterMeta.2 + 1, st.today⟩
  else
    ⟨afterMeta.1, st.entries, afterMeta.2, st.today⟩

end Seed

theorem pickF_self (o : Option α) : pickF o o = o := by
  cases o <;> rfl

namespace Seed

/-- A course item that is an object whose `students` field is present. -/
def objWithStudents : CItem → Prop
  | .cnull => False
  | .cobj c => c.students.isSome = true

/-- A settled course item: an object with `students` present and a
non-empty id. -/
def goodItem : CItem → Prop
  | .cnull => False
  | .cobj c => c.students.isSome = true ∧ c.id ≠ ""

theorem fixItem_objWithStudents (ctr : Nat) (it : CItem) :
    objWithStudents (fixItem ctr it).1 := by
  match it with
  | .cnull => simp [fixItem, objWithStudents]
  | .cobj c =>
    by_cases h1 : c.id = ""
    · by_cases h2 : c.name = ""
      · simp [fixItem, objWithStudents, h1, h2]
      · simp [fixItem, objWithStudents, h1, h2]
    · simp [fixItem, objWithStudents, h1]

theorem freshId_ne (n : Nat) : freshId n ≠ "" := by
  intro h
  have hlen : (freshId n).length = 0 := by rw [h]; rfl
  rw [freshId, String.length_append] at hlen
  have h5 : ("kurs_" : String).length = 5 := rfl
  omega

theorem fixItem_goodItem (ctr : Nat) (c : Course1) :
    goodItem (fixItem ctr (.cobj c)).1 := by
  by_cases h1 : c.id = ""
  · by_cases h2 : c.name = ""
    · simp [fixItem, goodItem, h1, h2, freshId_ne]
    · simp [fixItem, goodItem, h1, h2]
  · simp [fixItem, goodItem, h1]

theorem fixItems_objWithStudents (ctr : Nat) (items : List CItem) :
    ∀ it ∈ (fixItems ctr items).1, objWithStudents it := by
  induction items generalizing ctr with
  | nil => intro it h; simp [fixItems] at h
  | cons x xs ih =>
    intro it h
    simp only [fixItems, List.mem_cons] at h
    rcases h with h | h
    · rw [h]; exact fixItem_objWithStudents ctr x
    · exact ih _ it h

theorem fixItems_goodItem (ctr : Nat) (items : List CItem)
    (hall : ∀ it ∈ items, objWithStudents it) :
    ∀ it ∈ (fixItems ctr items).1, goodItem it := by
  induction items generalizing ctr with
  | nil => intro it h; simp [fixItems] at h
  | cons x xs ih =>
    intro it h
    simp only [fixItems, List.mem_cons] at h
    rcases h with h | h
    · have hx := hall x (List.mem_cons_self ..)
      match x, hx with
      | .cnull, hx => exact hx.elim
      | .cobj c, _ => rw [h]; exact fixItem_goodItem ctr c
    · exact ih _ (fun it2 hit2 => hall it2 (List.mem_cons_of_mem _ hit2)) it h

theorem fixItem_id_of_good (ctr : Nat) (it : CItem) (hg : goodItem it) :
    fixItem ctr it = (it, ctr) := by
  match it, hg with
  | .cobj ⟨cid, cname, cstu⟩, hg =>
    obtain ⟨hs, hid⟩ := hg
    obtain ⟨s, hsome⟩ := Option.isSome_iff_exists.mp hs
    simp only at hid hsome
    simp [fixItem, hid, hsome]

theorem fixItems_id_of_good (ctr : Nat) (items : List CItem)
    (hall : ∀ it ∈ items, goodItem it) :
    fixItems ctr items = (items, ctr) := by
  induction items generalizing ctr with
  | nil => rfl
  | cons x xs ih =>
    have hx := fixItem_id_of_good ctr x (hall x (List.mem_cons_self ..))
    simp [fixItems, hx,
      ih ctr (fun it2 h => hall it2 (List.mem_cons_of_mem _ h))]

theorem fixItems_length (ctr : Nat) (items : List CItem) :
    (fixItems ctr items).1.length = items.length := by
  induction items generalizing ctr with
  | nil => rfl
  | cons x xs ih => simp [fixItems, ih]

theorem insertEntry_length (x : String × Entry1) (l : List (String × Entry1)) :
    (insertEntry x l).length = l.length + 1 := by
  induction l with
  | nil => rfl
  | cons y t ih =>
    cases h : entryLe x y with
    | true => simp [insertEntry, h]
    | false => simp [insertEntry, h, ih]

theorem sortEntries_length (l : List (String × Entry1)) :
    (sortEntries l).length = l.length := by
  induction l with
  | nil => rfl
  | cons x t ih => simp [sortEntries, insertEntry_length, ih]

theorem mergeMeta1_self (d : MetaDoc1) : mergeMeta1 d d = d := by
  simp [mergeMeta1, pickF_self]

theorem loadMeta_of_settled (d : MetaDoc1) (items : List CItem) (ctr : Nat)
    (hc : d.courses = some (.current items))
    (hall : ∀ it ∈ items, goodItem it) :
    loadMeta (some d) ctr = (d, ctr) := by
  have hfix := fixItems_id_of_good ctr items hall
  simp only [loadMeta, hc, migrateCourses, hfix]
  rw [← hc]

theorem loadMeta_courses_shape (meta : Option MetaDoc1) (ctr : Nat) :
    ∃ items, ((loadMeta meta ctr).1).courses = some (.current items) ∧
      ∀ it ∈ items, objWithStudents it := by
  match meta with
  | none => exact ⟨[], rfl, by simp⟩
  | some d =>
    exact ⟨(fixItems ctr (migrateCourses (d.students.getD []) d.courses)).1,
      rfl, fixItems_objWithStudents ctr
        (migrateCourses (d.students.getD []) d.courses)⟩

/-- A settled metadata document: its courses are a fixed object array and
at least one of the three catalog arrays is non-empty. -/
def SettledMeta (d : MetaDoc1) : Prop :=
  (∃ items, d.courses = some (.current items) ∧ ∀ it ∈ items, goodItem it) ∧
  (hasItems d.courses || hasList d.subjects || hasList d.teachers) = true

/-- A settled backend state: settled stored metadata and a non-empty
entries collection. -/
def SettledState (st : State1) : Prop :=
  (∃ d, st.meta = some d ∧ SettledMeta d) ∧ st.entries ≠ []

/-- On a settled state, `ensureDefaults` is the identity. -/
theorem ensureDefaults_of_settled (st : State1) (hs : SettledState st) :
    ensureDefaults st = st := by
  obtain ⟨⟨d, hmeta, ⟨items, hc, hall⟩, hhas⟩, hne⟩ := hs
  have hload : loadMeta st.meta st.counter = (d, st.counter) := by
    rw [hmeta]; exact loadMeta_of_settled d items st.counter hc hall
  have hfix := fixItems_id_of_good st.counter items hall
  have hlen0 : ¬((loadEntries st.entries).length = 0) := by
    rw [loadEntries, sortEntries_length]
    exact fun h => hne (List.length_eq_zero.mp h)
  have hrec : ({ d with courses := some (.current items) } : MetaDoc1) = d := by
    rw [← hc]
  have hsv : saveMeta st.meta { d with courses := some (.current items) } =
      st.meta := by
    rw [hrec, hmeta, saveMeta, Option.getD_some, mergeMeta1_self]
  have hcond2 : (!hasItems (some (CoursesVal.current items)) &&
      !hasList d.subjects && !hasList d.teachers) = false := by
    rw [← hc]
    revert hhas
    cases hasItems d.courses <;> cases hasList d.subjects <;>
      cases hasList d.teachers <;> simp
  simp only [ensureDefaults, hload, hc, coursesItems, hfix, hsv, hcond2,
    Bool.false_eq_true, if_false, if_neg hlen0]

/-- The metadata stored by one `ensureDefaults` call. -/
theorem ensureDefaults_meta_eq (st : State1) :
    (ensureDefaults st).meta =
      (if (!hasItems (loadMeta st.meta st.counter).1.courses &&
          !hasList (loadMeta st.meta st.counter).1.subjects &&
          !hasList (loadMeta st.meta st.counter).1.teachers) = true then
        saveMeta st.meta defaultMeta
      else
        saveMeta st.meta { (loadMeta st.meta st.counter).1 with
          courses := some (.current (fixItems (loadMeta st.meta st.counter).2
            (coursesItems (loadMeta st.meta st.counter).1.courses)).1) }) := by
  simp only [ensureDefaults]
  by_cases hlen : (loadEntries st.entries).length = 0 <;>
    by_cases hcond : (!hasItems (loadMeta st.meta st.counter).1.courses &&
        !hasList (loadMeta st.meta st.counter).1.subjects &&
        !hasList (loadMeta st.meta st.counter).1.teachers) = true <;>
    simp [hlen, hcond]

/-- One `ensureDefaults` call leaves the entries collection non-empty. -/
theorem ensureDefaults_entries_ne (st : State1) :
    (ensureDefaults st).entries ≠ [] := by
  simp only [ensureDefaults]
  by_cases hlen : (loadEntries st.entries).length = 0
  · simp [hlen]
  · simp only [if_neg hlen]
    intro hcontra
    rw [loadEntries, sortEntries_length, hcontra] at hlen
    exact hlen rfl

/-- After one call of `ensureDefaults` the state is settled. -/
theorem ensureDefaults_settled (st : State1) :
    SettledState (ensureDefaults st) := by
  obtain ⟨items0, hshape, hobj⟩ :=
    loadMeta_courses_shape st.meta st.counter
  refine ⟨?_, ensureDefaults_entries_ne st⟩
  rw [ensureDefaults_meta_eq st]
  by_cases hcond : (!hasItems (loadMeta st.meta st.counter).1.courses &&
      !hasList (loadMeta st.meta st.counter).1.subjects &&
      !hasList (loadMeta st.meta st.counter).1.teachers) = true
  · -- seed branch: the canned default metadata is settled
    rw [if_pos hcond]
    refine ⟨mergeMeta1 (st.meta.getD ⟨none, none, none, none⟩) defaultMeta,
      rfl, ⟨_, rfl, ?_⟩, ?_⟩
    · intro it h
      simp only [List.mem_singleton] at h
      rw [h]
      exact ⟨rfl, by decide⟩
    · rfl
  · -- fixup branch: the re-fixed courses are settled
    rw [if_neg hcond]
    have hgood := fixItems_goodItem (loadMeta st.meta st.counter).2
      (coursesItems (loadMeta st.meta st.counter).1.courses)
      (by rw [hshape, coursesItems]; exact hobj)
    refine ⟨mergeMeta1 (st.meta.getD ⟨none, none, none, none⟩)
      { (loadMeta st.meta st.counter).1 with courses := some (.current
        (fixItems (loadMeta st.meta st.counter).2
          (coursesItems (loadMeta st.meta st.counter).1.courses)).1) },
      rfl, ⟨_, rfl, hgood⟩, ?_⟩
    -- at least one catalog array stays non-empty after the merge
    have hdis : hasItems (loadMeta st.meta st.counter).1.courses = true ∨
        hasList (loadMeta st.meta st.counter).1.subjects = true ∨
        hasList (loadMeta st.meta st.counter).1.teachers = true := by
      revert hcond
      cases hasItems (loadMeta st.meta st.counter).1.courses <;>
        cases hasList (loadMeta st.meta st.counter).1.subjects <;>
        cases hasList (loadMeta st.meta st.counter).1.teachers <;> simp
    rcases hdis with hdis | hdis | hdis
    · -- courses stay non-empty: fixItems preserves the length
      rw [hshape] at hdis
      simp only [hasItems, decide_eq_true_eq] at hdis
      have hlen : (fixItems (loadMeta st.meta st.counter).2
          (coursesItems (loadMeta st.meta st.counter).1.courses)).1.length
          = items0.length := by
        rw [hshape, coursesItems, fixItems_length]
      simp only [mergeMeta1, pickF, hasItems, hlen, decide_eq_true_eq]
      simp [hdis]
    · -- subjects stay non-empty
      match hsj : (loadMeta st.meta st.counter).1.subjects, hdis with
      | some l, hdis =>
        simp only [mergeMeta1, pickF, hsj]
        simp [hdis]
    · -- teachers stay non-empty
      match htc : (loadMeta st.meta st.counter).1.teachers, hdis with
      | some l, hdis =>
        simp only [mergeMeta1, pickF, htc]
        simp [hdis]

end Seed

/-- Witness for C10 at a concrete entry without a `locked` field. -/
theorem missing_locked_behaves_unlocked_witness :
    (toggleLockEntry nStore "N__2024-05-03__3").1.get "N__2024-05-03__3" =
      some { noLockDoc with locked := some true } ∧
    (updateEntry nStore "N__2024-05-03__3" sameKeyData).2 =
      (updateEntry (Store.set nStore "N__2024-05-03__3"
        { noLockDoc with locked := some false })
        "N__2024-05-03__3" sameKeyData).2 := by
  have h := missing_locked_behaves_unlocked nStore "N__2024-05-03__3"
    noLockDoc (by decide) rfl
  exact ⟨h.1.2, h.2.2 sameKeyData⟩

/-- C7: `ensureDefaults` is idempotent — in the normalization variant
(part_000) for every starting metadata state, and in the seeding variant
(part_001) for every backend state (metadata document, entries collection,
id-generator counter and current date): calling it twice in a row leaves
the stored metadata, and in the seeding variant also the entries
collection, in the same state as calling it once. -/
theorem ensureDefaults_idempotent :
    (∀ st : Option MetaDoc0,
      ensureDefaults (ensureDefaults st) = ensureDefaults st) ∧
    (∀ st : Seed.State1,
      Seed.ensureDefaults (Seed.ensureDefaults st) =
        Seed.ensureDefaults st) :=
  ⟨ensureDefaults_meta_idem,
   fun st => Seed.ensureDefaults_of_settled _ (Seed.ensureDefaults_settled st)⟩

end KLB
